import Mathlib

/-!
Verification of the address payload codec (`payload` / `from_payload` in
`src/lib.rs`) against its specification.

The codec is embedded shallowly:

* A byte buffer is a `List Nat` whose elements are `< 256` (the byte-ness
  condition appears as an explicit predicate where it matters).
* The opaque host `Address` value is modelled as its canonical XDR buffer,
  because the host serialization (`to_xdr` / `from_xdr`) is a bijection
  between address values and well-formed `ScVal::Address` XDR buffers.
  The set of well-formed buffers (`validScAddressXdr`) covers the five
  `ScAddress` arms of Stellar Protocol 23/24: account (tag 0, nested
  ed25519 public-key tag 0, 32-byte key), contract (tag 1, 32-byte hash),
  muxed account (tag 2, 8-byte id + 32-byte key), claimable balance
  (tag 3, nested tag 0, 32-byte hash) and liquidity pool (tag 4, 32-byte
  hash), each preceded by the 4-byte `ScVal` discriminant 18 ("address").
* Operations that can trap (out-of-range slices, `unwrap_optimized`)
  return `Option`, where `none` models the trap/abort.
-/

set_option maxRecDepth 16384
set_option maxHeartbeats 1000000

namespace AddrPayload

abbrev Bytes := List Nat

/-- Byte-ness of a buffer: every element is an 8-bit value. -/
def allBytes (b : Bytes) : Bool := b.all (fun x => x < 256)

/-- Model of `soroban_sdk::Bytes::slice(start..stop)`: returns the
sub-buffer at `[start, stop)`, trapping (`none`) when the range is out of
bounds, exactly as the SDK panics on an out-of-range slice. -/
def sliceRange (b : Bytes) (start stop : Nat) : Option Bytes :=
  if start ≤ stop ∧ stop ≤ b.length then some ((b.drop start).take (stop - start))
  else none

/-- `AddressPayloadType` from `src/lib.rs`. -/
inductive AddressPayloadType where
  | AccountEd25519PublicKey
  | ContractHash
  deriving DecidableEq, Repr

/-- Well-formedness of a serialized `ScVal::Address` buffer: the host's
`from_xdr` accepts exactly these buffers, and `to_xdr` of a true address
value always produces one of them.  Five arms as of Protocol 23/24. -/
def validScAddressXdr (b : Bytes) : Bool :=
  allBytes b &&
  ( (b.take 12 == [0, 0, 0, 18, 0, 0, 0, 0, 0, 0, 0, 0] && b.length == 44)
  || (b.take 8 == [0, 0, 0, 18, 0, 0, 0, 1] && b.length == 40)
  || (b.take 8 == [0, 0, 0, 18, 0, 0, 0, 2] && b.length == 48)
  || (b.take 12 == [0, 0, 0, 18, 0, 0, 0, 3, 0, 0, 0, 0] && b.length == 44)
  || (b.take 8 == [0, 0, 0, 18, 0, 0, 0, 4] && b.length == 40))

/-- An opaque host address value, identified with its canonical XDR buffer. -/
def Address : Type := { b : Bytes // validScAddressXdr b = true }

instance : DecidableEq Address := fun a b =>
  decidable_of_iff (a.val = b.val) Subtype.ext_iff.symm

/-- Host primitive: serialize an address to its canonical XDR buffer. -/
def Address.to_xdr (a : Address) : Bytes := a.val

/-- Host primitive: deserialize an XDR buffer into an address value;
fails (`none`) when the buffer is not a well-formed address encoding. -/
def Address.from_xdr (b : Bytes) : Option Address :=
  if h : validScAddressXdr b = true then some ⟨b, h⟩ else none

/-- `payload` from `src/lib.rs`, as a function of the serialized buffer.
The outer `Option` models trapping: `none` is an abort (an out-of-range
slice or a failed `try_into().unwrap_optimized()`), `some none` is the
function returning `None`, and `some (some (t, p))` is `Some((t, p))`.
Each `sliceRange _ i (i+4)` models `xdr.slice(i..i+4)` followed by
`try_into::<BytesN<4>>().unwrap_optimized()`; a successful 4-wide slice
always has length 4, so `try_into` introduces no extra failure. -/
def payloadXdr (xdr0 : Bytes) : Option (Option (AddressPayloadType × Bytes)) := do
  -- Skip over ScVal discriminant because we know it is an ScAddress.
  let xdr ← sliceRange xdr0 4 xdr0.length
  -- Decode ScAddress
  let addr_type ← sliceRange xdr 0 4
  match addr_type with
  | [0, 0, 0, 0] => do
      -- Decode PublicKey
      let public_key_type ← sliceRange xdr 4 8
      match public_key_type with
      | [0, 0, 0, 0] => do
          -- Decode PublicKey::PublicKeyTypeEd25519
          let ed25519 ← sliceRange xdr 8 40
          pure (some (AddressPayloadType.AccountEd25519PublicKey, ed25519))
      | _ => pure none
  | [0, 0, 0, 1] => do
      -- Decode ScAddress::Contract
      let hash ← sliceRange xdr 4 36
      pure (some (AddressPayloadType.ContractHash, hash))
  | _ => pure none

/-- `Address::payload` from `src/lib.rs`: serialize the address via the
host, then parse the buffer. -/
def Address.payload (a : Address) : Option (Option (AddressPayloadType × Bytes)) :=
  payloadXdr a.to_xdr

/-- The buffer `from_payload` constructs: the fixed header selected by the
payload type, with the payload appended verbatim (`Bytes::from_slice`
followed by `append`). -/
def from_payloadXdr (payload_type : AddressPayloadType) (payload : Bytes) : Bytes :=
  (match payload_type with
   | AddressPayloadType.AccountEd25519PublicKey =>
      [0, 0, 0, 18,  -- ScVal::Address
       0, 0, 0, 0,   -- ScAddress::Account
       0, 0, 0, 0]   -- PublicKey::PublicKeyTypeEd25519
   | AddressPayloadType.ContractHash =>
      [0, 0, 0, 18,  -- ScVal::Address
       0, 0, 0, 1])  -- ScAddress::Contract
  ++ payload

/-- `Address::from_payload` from `src/lib.rs`: build the header + payload
buffer and hand it to the host's `from_xdr`; `unwrap_optimized` turns a
host rejection into an abort, modelled by propagating `none`. -/
def Address.from_payload (payload_type : AddressPayloadType) (payload : Bytes) :
    Option Address :=
  Address.from_xdr (from_payloadXdr payload_type payload)

/-! ### Helper lemmas about buffer shapes -/

/-- A buffer has a given take-prefix and total length iff it is that prefix
followed by a tail of the complementary length. -/
theorem take_len_iff (L : Bytes) (n m : Nat) (hL : L.length = n) (b : Bytes) :
    (b.take n = L ∧ b.length = n + m) ↔ ∃ p, p.length = m ∧ b = L ++ p := by
  constructor
  · rintro ⟨h1, h2⟩
    refine ⟨b.drop n, ?_, ?_⟩
    · simp [List.length_drop, h2]
    · conv_lhs => rw [← List.take_append_drop n b]
      rw [h1]
  · rintro ⟨p, hp, rfl⟩
    constructor
    · rw [List.take_left' hL]
    · simp [List.length_append, hL, hp]

/-- Characterization of well-formed address buffers as one of the five
header-plus-payload shapes. -/
theorem valid_iff (b : Bytes) :
    validScAddressXdr b = true ↔
      allBytes b = true ∧
      ((∃ p, p.length = 32 ∧ b = [0, 0, 0, 18, 0, 0, 0, 0, 0, 0, 0, 0] ++ p) ∨
       (∃ p, p.length = 32 ∧ b = [0, 0, 0, 18, 0, 0, 0, 1] ++ p) ∨
       (∃ p, p.length = 40 ∧ b = [0, 0, 0, 18, 0, 0, 0, 2] ++ p) ∨
       (∃ p, p.length = 32 ∧ b = [0, 0, 0, 18, 0, 0, 0, 3, 0, 0, 0, 0] ++ p) ∨
       (∃ p, p.length = 32 ∧ b = [0, 0, 0, 18, 0, 0, 0, 4] ++ p)) := by
  unfold validScAddressXdr
  rw [Bool.and_eq_true, Bool.or_eq_true, Bool.or_eq_true, Bool.or_eq_true, Bool.or_eq_true]
  simp only [Bool.and_eq_true, beq_iff_eq]
  constructor
  · rintro ⟨hb, h⟩
    refine ⟨hb, ?_⟩
    rcases h with ((((h | h) | h) | h) | h)
    · exact Or.inl ((take_len_iff _ 12 32 (by decide) b).mp h)
    · exact Or.inr (Or.inl ((take_len_iff _ 8 32 (by decide) b).mp h))
    · exact Or.inr (Or.inr (Or.inl ((take_len_iff _ 8 40 (by decide) b).mp h)))
    · exact Or.inr (Or.inr (Or.inr (Or.inl ((take_len_iff _ 12 32 (by decide) b).mp h))))
    · exact Or.inr (Or.inr (Or.inr (Or.inr ((take_len_iff _ 8 32 (by decide) b).mp h))))
  · rintro ⟨hb, h⟩
    refine ⟨hb, ?_⟩
    rcases h with h | h | h | h | h
    · exact Or.inl (Or.inl (Or.inl (Or.inl ((take_len_iff _ 12 32 (by decide) b).mpr h))))
    · exact Or.inl (Or.inl (Or.inl (Or.inr ((take_len_iff _ 8 32 (by decide) b).mpr h))))
    · exact Or.inl (Or.inl (Or.inr ((take_len_iff _ 8 40 (by decide) b).mpr h)))
    · exact Or.inl (Or.inr ((take_len_iff _ 12 32 (by decide) b).mpr h))
    · exact Or.inr ((take_len_iff _ 8 32 (by decide) b).mpr h)

theorem sliceRange_eq (b : Bytes) (s e : Nat) (h1 : s ≤ e) (h2 : e ≤ b.length) :
    sliceRange b s e = some ((b.drop s).take (e - s)) := by
  unfold sliceRange
  rw [if_pos ⟨h1, h2⟩]

/-- Decoding an account-shaped buffer yields the ed25519 public key. -/
theorem payloadXdr_account (p : Bytes) (hp : p.length = 32) :
    payloadXdr ([0, 0, 0, 18, 0, 0, 0, 0, 0, 0, 0, 0] ++ p) =
      some (some (AddressPayloadType.AccountEd25519PublicKey, p)) := by
  have hlen : ([0, 0, 0, 18, 0, 0, 0, 0, 0, 0, 0, 0] ++ p).length = 44 := by
    simp [hp]
  have hdrop4 : (([0, 0, 0, 18, 0, 0, 0, 0, 0, 0, 0, 0] : Bytes) ++ p).drop 4 =
      [0, 0, 0, 0, 0, 0, 0, 0] ++ p := by
    show (([0, 0, 0, 18] : Bytes) ++ ([0, 0, 0, 0, 0, 0, 0, 0] ++ p)).drop 4 = _
    exact List.drop_left' (by decide)
  have hlen8 : (([0, 0, 0, 0, 0, 0, 0, 0] : Bytes) ++ p).length = 40 := by
    simp [hp]
  have h1 : sliceRange ([0, 0, 0, 18, 0, 0, 0, 0, 0, 0, 0, 0] ++ p) 4 44 =
      some ([0, 0, 0, 0, 0, 0, 0, 0] ++ p) := by
    rw [sliceRange_eq _ 4 44 (by omega) (le_of_eq hlen.symm), hdrop4]
    rw [List.take_of_length_le (by omega)]
  have h2 : sliceRange ([0, 0, 0, 0, 0, 0, 0, 0] ++ p) 0 4 = some [0, 0, 0, 0] := by
    rw [sliceRange_eq _ 0 4 (by omega) (by omega), List.drop_zero]
    norm_num
  have h3 : sliceRange ([0, 0, 0, 0, 0, 0, 0, 0] ++ p) 4 8 = some [0, 0, 0, 0] := by
    rw [sliceRange_eq _ 4 8 (by omega) (by omega)]
    norm_num
  have h4 : sliceRange ([0, 0, 0, 0, 0, 0, 0, 0] ++ p) 8 40 = some p := by
    rw [sliceRange_eq _ 8 40 (by omega) (by omega)]
    rw [List.drop_left' (by decide)]
    rw [List.take_of_length_le (by omega)]
  unfold payloadXdr
  rw [show ([0, 0, 0, 18, 0, 0, 0, 0, 0, 0, 0, 0] ++ p : Bytes).length = 44 from hlen]
  rw [h1]
  simp only [Option.bind_eq_bind, Option.some_bind]
  rw [h2]
  simp only [Option.some_bind]
  rw [h3]
  simp only [Option.some_bind]
  rw [h4]
  rfl

/-- Decoding a contract-shaped buffer yields the contract hash. -/
theorem payloadXdr_contract (p : Bytes) (hp : p.length = 32) :
    payloadXdr ([0, 0, 0, 18, 0, 0, 0, 1] ++ p) =
      some (some (AddressPayloadType.ContractHash, p)) := by
  have hlen : ([0, 0, 0, 18, 0, 0, 0, 1] ++ p).length = 40 := by
    simp [hp]
  have hdrop4 : (([0, 0, 0, 18, 0, 0, 0, 1] : Bytes) ++ p).drop 4 = [0, 0, 0, 1] ++ p := by
    show (([0, 0, 0, 18] : Bytes) ++ ([0, 0, 0, 1] ++ p)).drop 4 = _
    exact List.drop_left' (by decide)
  have h1 : sliceRange ([0, 0, 0, 18, 0, 0, 0, 1] ++ p) 4 40 = some ([0, 0, 0, 1] ++ p) := by
    rw [sliceRange_eq _ 4 40 (by omega) (le_of_eq hlen.symm), hdrop4]
    rw [List.take_of_length_le (by simp [hp])]
  have h2 : sliceRange ([0, 0, 0, 1] ++ p) 0 4 = some [0, 0, 0, 1] := by
    rw [sliceRange_eq _ 0 4 (by omega) (by simp [hp]), List.drop_zero]
    norm_num
  have h3 : sliceRange ([0, 0, 0, 1] ++ p) 4 36 = some p := by
    rw [sliceRange_eq _ 4 36 (by omega) (by simp [hp])]
    rw [List.drop_left' (by decide)]
    rw [List.take_of_length_le (by omega)]
  unfold payloadXdr
  rw [show ([0, 0, 0, 18, 0, 0, 0, 1] ++ p : Bytes).length = 40 from hlen]
  rw [h1]
  simp only [Option.bind_eq_bind, Option.some_bind]
  rw [h2]
  simp only [Option.some_bind]
  rw [h3]
  rfl

/-- Decoding a muxed-account-shaped buffer (`ScAddress` tag 2) returns
`None` without trapping. -/
theorem payloadXdr_muxed (p : Bytes) (hp : p.length = 40) :
    payloadXdr ([0, 0, 0, 18, 0, 0, 0, 2] ++ p) = some none := by
  have hlen : ([0, 0, 0, 18, 0, 0, 0, 2] ++ p).length = 48 := by
    simp [hp]
  have hdrop4 : (([0, 0, 0, 18, 0, 0, 0, 2] : Bytes) ++ p).drop 4 = [0, 0, 0, 2] ++ p := by
    show (([0, 0, 0, 18] : Bytes) ++ ([0, 0, 0, 2] ++ p)).drop 4 = _
    exact List.drop_left' (by decide)
  have h1 : sliceRange ([0, 0, 0, 18, 0, 0, 0, 2] ++ p) 4 48 = some ([0, 0, 0, 2] ++ p) := by
    rw [sliceRange_eq _ 4 48 (by omega) (le_of_eq hlen.symm), hdrop4]
    rw [List.take_of_length_le (by simp [hp])]
  have h2 : sliceRange ([0, 0, 0, 2] ++ p) 0 4 = some [0, 0, 0, 2] := by
    rw [sliceRange_eq _ 0 4 (by omega) (by simp [hp]), List.drop_zero]
    norm_num
  unfold payloadXdr
  rw [show ([0, 0, 0, 18, 0, 0, 0, 2] ++ p : Bytes).length = 48 from hlen]
  rw [h1]
  simp only [Option.bind_eq_bind, Option.some_bind]
  rw [h2]
  rfl

/-- Decoding a claimable-balance-shaped buffer (`ScAddress` tag 3) returns
`None` without trapping. -/
theorem payloadXdr_claimable (p : Bytes) (hp : p.length = 32) :
    payloadXdr ([0, 0, 0, 18, 0, 0, 0, 3, 0, 0, 0, 0] ++ p) = some none := by
  have hlen : ([0, 0, 0, 18, 0, 0, 0, 3, 0, 0, 0, 0] ++ p).length = 44 := by
    simp [hp]
  have hdrop4 : (([0, 0, 0, 18, 0, 0, 0, 3, 0, 0, 0, 0] : Bytes) ++ p).drop 4 =
      [0, 0, 0, 3, 0, 0, 0, 0] ++ p := by
    show (([0, 0, 0, 18] : Bytes) ++ ([0, 0, 0, 3, 0, 0, 0, 0] ++ p)).drop 4 = _
    exact List.drop_left' (by decide)
  have h1 : sliceRange ([0, 0, 0, 18, 0, 0, 0, 3, 0, 0, 0, 0] ++ p) 4 44 =
      some ([0, 0, 0, 3, 0, 0, 0, 0] ++ p) := by
    rw [sliceRange_eq _ 4 44 (by omega) (le_of_eq hlen.symm), hdrop4]
    rw [List.take_of_length_le (by simp [hp])]
  have h2 : sliceRange ([0, 0, 0, 3, 0, 0, 0, 0] ++ p) 0 4 = some [0, 0, 0, 3] := by
    rw [sliceRange_eq _ 0 4 (by omega) (by simp [hp]), List.drop_zero]
    norm_num
  unfold payloadXdr
  rw [show ([0, 0, 0, 18, 0, 0, 0, 3, 0, 0, 0, 0] ++ p : Bytes).length = 44 from hlen]
  rw [h1]
  simp only [Option.bind_eq_bind, Option.some_bind]
  rw [h2]
  rfl

/-- Decoding a liquidity-pool-shaped buffer (`ScAddress` tag 4) returns
`None` without trapping. -/
theorem payloadXdr_liquidity (p : Bytes) (hp : p.length = 32) :
    payloadXdr ([0, 0, 0, 18, 0, 0, 0, 4] ++ p) = some none := by
  have hlen : ([0, 0, 0, 18, 0, 0, 0, 4] ++ p).length = 40 := by
    simp [hp]
  have hdrop4 : (([0, 0, 0, 18, 0, 0, 0, 4] : Bytes) ++ p).drop 4 = [0, 0, 0, 4] ++ p := by
    show (([0, 0, 0, 18] : Bytes) ++ ([0, 0, 0, 4] ++ p)).drop 4 = _
    exact List.drop_left' (by decide)
  have h1 : sliceRange ([0, 0, 0, 18, 0, 0, 0, 4] ++ p) 4 40 = some ([0, 0, 0, 4] ++ p) := by
    rw [sliceRange_eq _ 4 40 (by omega) (le_of_eq hlen.symm), hdrop4]
    rw [List.take_of_length_le (by simp [hp])]
  have h2 : sliceRange ([0, 0, 0, 4] ++ p) 0 4 = some [0, 0, 0, 4] := by
    rw [sliceRange_eq _ 0 4 (by omega) (by simp [hp]), List.drop_zero]
    norm_num
  unfold payloadXdr
  rw [show ([0, 0, 0, 18, 0, 0, 0, 4] ++ p : Bytes).length = 40 from hlen]
  rw [h1]
  simp only [Option.bind_eq_bind, Option.some_bind]
  rw [h2]
  rfl

/-- The buffer built for an account payload of the right length is a
well-formed address encoding, so the host accepts it. -/
theorem valid_account (p : Bytes) (hp : p.length = 32) (hb : allBytes p = true) :
    validScAddressXdr ([0, 0, 0, 18, 0, 0, 0, 0, 0, 0, 0, 0] ++ p) = true := by
  rw [valid_iff]
  refine ⟨?_, Or.inl ⟨p, hp, rfl⟩⟩
  have hL : allBytes [0, 0, 0, 18, 0, 0, 0, 0, 0, 0, 0, 0] = true := by decide
  unfold allBytes at hL hb ⊢
  rw [List.all_append, hL, hb]
  rfl

/-- The buffer built for a contract payload of the right length is a
well-formed address encoding, so the host accepts it. -/
theorem valid_contract (p : Bytes) (hp : p.length = 32) (hb : allBytes p = true) :
    validScAddressXdr ([0, 0, 0, 18, 0, 0, 0, 1] ++ p) = true := by
  rw [valid_iff]
  refine ⟨?_, Or.inr (Or.inl ⟨p, hp, rfl⟩)⟩
  have hL : allBytes [0, 0, 0, 18, 0, 0, 0, 1] = true := by decide
  unfold allBytes at hL hb ⊢
  rw [List.all_append, hL, hb]
  rfl

/-- A well-formed account-header buffer forces a 32-byte tail. -/
theorem valid_account_length (p : Bytes)
    (h : validScAddressXdr ([0, 0, 0, 18, 0, 0, 0, 0, 0, 0, 0, 0] ++ p) = true) :
    p.length = 32 := by
  rw [valid_iff] at h
  rcases h with ⟨-, h | h | h | h | h⟩ <;> rcases h with ⟨q, hq, e⟩
  · rw [List.append_right_inj] at e
    rw [e, hq]
  · exact absurd (congrArg (fun l => l.getD 7 0) e : (0 : Nat) = 1) (by decide)
  · exact absurd (congrArg (fun l => l.getD 7 0) e : (0 : Nat) = 2) (by decide)
  · exact absurd (congrArg (fun l => l.getD 7 0) e : (0 : Nat) = 3) (by decide)
  · exact absurd (congrArg (fun l => l.getD 7 0) e : (0 : Nat) = 4) (by decide)

/-- A well-formed contract-header buffer forces a 32-byte tail. -/
theorem valid_contract_length (p : Bytes)
    (h : validScAddressXdr ([0, 0, 0, 18, 0, 0, 0, 1] ++ p) = true) :
    p.length = 32 := by
  rw [valid_iff] at h
  rcases h with ⟨-, h | h | h | h | h⟩ <;> rcases h with ⟨q, hq, e⟩
  · exact absurd (congrArg (fun l => l.getD 7 0) e : (1 : Nat) = 0) (by decide)
  · rw [List.append_right_inj] at e
    rw [e, hq]
  · exact absurd (congrArg (fun l => l.getD 7 0) e : (1 : Nat) = 2) (by decide)
  · exact absurd (congrArg (fun l => l.getD 7 0) e : (1 : Nat) = 3) (by decide)
  · exact absurd (congrArg (fun l => l.getD 7 0) e : (1 : Nat) = 4) (by decide)

theorem from_xdr_of_valid {b : Bytes} (h : validScAddressXdr b = true) :
    Address.from_xdr b = some ⟨b, h⟩ := by
  unfold Address.from_xdr
  rw [dif_pos h]

theorem from_xdr_of_invalid {b : Bytes} (h : ¬ validScAddressXdr b = true) :
    Address.from_xdr b = none := by
  unfold Address.from_xdr
  rw [dif_neg h]

/-! ### Spec-side decoder (for the refinement claim C2)

`decodeSpec` is written from the specification's words (§4.1), not from the
source: skip 4 bytes, read big-endian 32-bit tags, and slice the payload at
the spec's stated post-skip offsets. -/

/-- The big-endian 32-bit value of the 4 bytes of `b` starting at index `i`
(0 when fewer than 4 bytes remain). -/
def readBE32 (b : Bytes) (i : Nat) : Nat :=
  match (b.drop i).take 4 with
  | [x0, x1, x2, x3] => ((x0 * 256 + x1) * 256 + x2) * 256 + x3
  | _ => 0

/-- The decode algorithm exactly as the specification states it: skip the
first 4 bytes; `outer_tag = 0` and `inner_tag = 0` give the account payload
at post-skip offsets `[8, 40)`; `outer_tag = 1` gives the contract payload
at post-skip offsets `[4, 36)`; anything else is `none`. -/
def decodeSpec (buf : Bytes) : Option (AddressPayloadType × Bytes) :=
  let post := buf.drop 4
  if readBE32 post 0 = 0 then
    if readBE32 post 4 = 0 then
      some (AddressPayloadType.AccountEd25519PublicKey, (post.drop 8).take 32)
    else none
  else if readBE32 post 0 = 1 then
    some (AddressPayloadType.ContractHash, (post.drop 4).take 32)
  else none

/-! ### Claim theorems -/

/-- C1: for every payload type `t` and every 32-byte payload `p`, decoding
the address produced by encoding `(t, p)` returns `Some((t, p))`:
`payload(from_payload(env, t, p)) == Some((t, p))`. -/
theorem c1_encode_decode_round_trip (t : AddressPayloadType) (p : Bytes)
    (hp : p.length = 32) (hb : allBytes p = true) :
    (Address.from_payload t p).bind Address.payload = some (some (t, p)) := by
  cases t
  case AccountEd25519PublicKey =>
    have hv := valid_account p hp hb
    show (Address.from_xdr ([0, 0, 0, 18, 0, 0, 0, 0, 0, 0, 0, 0] ++ p)).bind
        Address.payload = _
    rw [from_xdr_of_valid hv]
    show payloadXdr ([0, 0, 0, 18, 0, 0, 0, 0, 0, 0, 0, 0] ++ p) = _
    exact payloadXdr_account p hp
  case ContractHash =>
    have hv := valid_contract p hp hb
    show (Address.from_xdr ([0, 0, 0, 18, 0, 0, 0, 1] ++ p)).bind Address.payload = _
    rw [from_xdr_of_valid hv]
    show payloadXdr ([0, 0, 0, 18, 0, 0, 0, 1] ++ p) = _
    exact payloadXdr_contract p hp

/-- C1 witness: the round trip at a concrete 32-byte payload. -/
theorem c1_encode_decode_round_trip_witness :
    (List.replicate 32 7 : Bytes).length = 32 ∧
      allBytes (List.replicate 32 7) = true ∧
      (Address.from_payload AddressPayloadType.ContractHash
          (List.replicate 32 7)).bind Address.payload =
        some (some (AddressPayloadType.ContractHash, List.replicate 32 7)) :=
  ⟨by decide, by decide,
    c1_encode_decode_round_trip AddressPayloadType.ContractHash
      (List.replicate 32 7) (by decide) (by decide)⟩

/-- C2: on every serialized address buffer, decode follows exactly the
spec's case analysis after skipping the first 4 bytes: outer tag 0 with
inner tag 0 yields the account payload at post-skip `[8, 40)`, outer tag 1
yields the contract payload at post-skip `[4, 36)`, and every other case
yields `None`. -/
theorem c2_decode_case_analysis (a : Address) :
    Address.payload a = some (decodeSpec a.to_xdr) := by
  obtain ⟨b, hv⟩ := a
  show payloadXdr b = some (decodeSpec b)
  rw [valid_iff] at hv
  obtain ⟨-, h | h | h | h | h⟩ := hv <;> obtain ⟨p, hp, rfl⟩ := h
  · rw [payloadXdr_account p hp]
    have hd : decodeSpec ([0, 0, 0, 18, 0, 0, 0, 0, 0, 0, 0, 0] ++ p) =
        some (AddressPayloadType.AccountEd25519PublicKey, p.take 32) := rfl
    rw [hd, List.take_of_length_le (le_of_eq hp)]
  · rw [payloadXdr_contract p hp]
    have hd : decodeSpec ([0, 0, 0, 18, 0, 0, 0, 1] ++ p) =
        some (AddressPayloadType.ContractHash, p.take 32) := rfl
    rw [hd, List.take_of_length_le (le_of_eq hp)]
  · rw [payloadXdr_muxed p hp]
    rfl
  · rw [payloadXdr_claimable p hp]
    rfl
  · rw [payloadXdr_liquidity p hp]
    rfl

/-- C4: the buffer that encode constructs and hands to the host is exactly
the fixed header for the payload type followed by the payload verbatim:
12 bytes `00 00 00 12, 00 00 00 00, 00 00 00 00` for the account type and
8 bytes `00 00 00 12, 00 00 00 01` for the contract type, with no padding. -/
theorem c4_encode_buffer_exact (p : Bytes) :
    from_payloadXdr AddressPayloadType.AccountEd25519PublicKey p =
        [0, 0, 0, 18, 0, 0, 0, 0, 0, 0, 0, 0] ++ p ∧
      from_payloadXdr AddressPayloadType.ContractHash p =
        [0, 0, 0, 18, 0, 0, 0, 1] ++ p ∧
      ∀ t, Address.from_payload t p = Address.from_xdr (from_payloadXdr t p) :=
  ⟨rfl, rfl, fun _ => rfl⟩

/-- C9: a buffer that begins with the address discriminant and a recognized
tag but is truncated before the full payload makes decode trap on its
constant-offset slice (result `none`, the abort) instead of returning
`None` (which would be `some none`). -/
theorem c9_truncated_recognized_buffer_aborts :
    payloadXdr [0, 0, 0, 18, 0, 0, 0, 1] = none ∧
      payloadXdr [0, 0, 0, 18, 0, 0, 0, 0, 0, 0, 0, 0] = none := by
  decide

/-- A concrete host-producible address of an unrecognized kind: a muxed
account (`ScAddress` tag 2) with a zero id and key. -/
def muxedExample : Address :=
  ⟨[0, 0, 0, 18, 0, 0, 0, 2] ++ List.replicate 40 0, by decide⟩

/-- A concrete contract address whose hash is 32 copies of `7`. -/
def contractExample : Address :=
  ⟨[0, 0, 0, 18, 0, 0, 0, 1] ++ List.replicate 32 7, by decide⟩

/-- A concrete account address whose key is 32 copies of `9`. -/
def accountExample : Address :=
  ⟨[0, 0, 0, 18, 0, 0, 0, 0, 0, 0, 0, 0] ++ List.replicate 32 9, by decide⟩

/-- C3: for every serialized address buffer whose outer tag is neither 0
nor 1, or whose outer tag is 0 but whose inner tag is not 0, decode
returns `None` (`some none`) and never aborts (never `none`). -/
theorem c3_unrecognized_tags_never_abort (a : Address)
    (h : (readBE32 (a.to_xdr.drop 4) 0 ≠ 0 ∧ readBE32 (a.to_xdr.drop 4) 0 ≠ 1) ∨
      (readBE32 (a.to_xdr.drop 4) 0 = 0 ∧ readBE32 (a.to_xdr.drop 4) 4 ≠ 0)) :
    Address.payload a = some none := by
  obtain ⟨b, hv⟩ := a
  replace h : (readBE32 (b.drop 4) 0 ≠ 0 ∧ readBE32 (b.drop 4) 0 ≠ 1) ∨
      (readBE32 (b.drop 4) 0 = 0 ∧ readBE32 (b.drop 4) 4 ≠ 0) := h
  show payloadXdr b = some none
  rw [valid_iff] at hv
  obtain ⟨-, h1 | h1 | h1 | h1 | h1⟩ := hv <;> obtain ⟨q, hq, rfl⟩ := h1
  · have h0 : readBE32 ((([0, 0, 0, 18, 0, 0, 0, 0, 0, 0, 0, 0] ++ q :
        Bytes)).drop 4) 0 = 0 := rfl
    have h4 : readBE32 ((([0, 0, 0, 18, 0, 0, 0, 0, 0, 0, 0, 0] ++ q :
        Bytes)).drop 4) 4 = 0 := rfl
    rcases h with ⟨ha, -⟩ | ⟨-, hb⟩
    · exact absurd h0 ha
    · exact absurd h4 hb
  · have h0 : readBE32 ((([0, 0, 0, 18, 0, 0, 0, 1] ++ q : Bytes)).drop 4) 0 = 1 := rfl
    rcases h with ⟨-, ha⟩ | ⟨hb, -⟩
    · exact absurd h0 ha
    · exact absurd (h0.symm.trans hb) (by decide)
  · exact payloadXdr_muxed q hq
  · exact payloadXdr_claimable q hq
  · exact payloadXdr_liquidity q hq

/-- C3 witness: the muxed-account address has an unrecognized outer tag
and decode returns `None` on it without aborting. -/
theorem c3_unrecognized_tags_never_abort_witness :
    (readBE32 (muxedExample.to_xdr.drop 4) 0 ≠ 0 ∧
        readBE32 (muxedExample.to_xdr.drop 4) 0 ≠ 1) ∧
      Address.payload muxedExample = some none :=
  ⟨by decide, c3_unrecognized_tags_never_abort muxedExample (Or.inl (by decide))⟩

/-- C5: whenever decode recognizes an address (`payload(x) == Some((t, p))`),
re-encoding the result reproduces the original address value:
`from_payload(env, t, p) == x`. -/
theorem c5_decode_encode_inverse (a : Address) (t : AddressPayloadType) (p : Bytes)
    (h : Address.payload a = some (some (t, p))) :
    Address.from_payload t p = some a := by
  obtain ⟨b, hv⟩ := a
  have hv' := hv
  rw [valid_iff] at hv'
  obtain ⟨-, h1 | h1 | h1 | h1 | h1⟩ := hv' <;> obtain ⟨q, hq, hbq⟩ := h1 <;> subst hbq
  · rw [show Address.payload ⟨[0, 0, 0, 18, 0, 0, 0, 0, 0, 0, 0, 0] ++ q, hv⟩ =
        payloadXdr ([0, 0, 0, 18, 0, 0, 0, 0, 0, 0, 0, 0] ++ q) from rfl,
      payloadXdr_account q hq] at h
    simp only [Option.some.injEq, Prod.mk.injEq] at h
    obtain ⟨ht, hpq⟩ := h
    subst ht
    subst hpq
    exact from_xdr_of_valid hv
  · rw [show Address.payload ⟨[0, 0, 0, 18, 0, 0, 0, 1] ++ q, hv⟩ =
        payloadXdr ([0, 0, 0, 18, 0, 0, 0, 1] ++ q) from rfl,
      payloadXdr_contract q hq] at h
    simp only [Option.some.injEq, Prod.mk.injEq] at h
    obtain ⟨ht, hpq⟩ := h
    subst ht
    subst hpq
    exact from_xdr_of_valid hv
  · rw [show Address.payload ⟨[0, 0, 0, 18, 0, 0, 0, 2] ++ q, hv⟩ =
        payloadXdr ([0, 0, 0, 18, 0, 0, 0, 2] ++ q) from rfl,
      payloadXdr_muxed q hq] at h
    simp at h
  · rw [show Address.payload ⟨[0, 0, 0, 18, 0, 0, 0, 3, 0, 0, 0, 0] ++ q, hv⟩ =
        payloadXdr ([0, 0, 0, 18, 0, 0, 0, 3, 0, 0, 0, 0] ++ q) from rfl,
      payloadXdr_claimable q hq] at h
    simp at h
  · rw [show Address.payload ⟨[0, 0, 0, 18, 0, 0, 0, 4] ++ q, hv⟩ =
        payloadXdr ([0, 0, 0, 18, 0, 0, 0, 4] ++ q) from rfl,
      payloadXdr_liquidity q hq] at h
    simp at h

/-- C5 witness: the inverse law at a concrete contract address. -/
theorem c5_decode_encode_inverse_witness :
    Address.payload contractExample =
        some (some (AddressPayloadType.ContractHash, (List.replicate 32 7 : Bytes))) ∧
      Address.from_payload AddressPayloadType.ContractHash (List.replicate 32 7) =
        some contractExample :=
  ⟨by decide,
    c5_decode_encode_inverse contractExample AddressPayloadType.ContractHash
      (List.replicate 32 7) (by decide)⟩

/-- C7: encode fails only by delegation: the buffer construction is the
total function `from_payloadXdr` and `from_payload` is exactly the host's
`from_xdr` applied to it (the failure is propagated unchanged, no failure
mode is added); for a well-formed 32-byte payload the host accepts, so the
whole encode succeeds. -/
theorem c7_encode_fails_only_by_delegation (t : AddressPayloadType) (p : Bytes) :
    Address.from_payload t p = Address.from_xdr (from_payloadXdr t p) ∧
      (p.length = 32 → allBytes p = true →
        ∃ a, Address.from_payload t p = some a) := by
  refine ⟨rfl, fun hp hb => ?_⟩
  cases t
  case AccountEd25519PublicKey =>
    exact ⟨_, from_xdr_of_valid (valid_account p hp hb)⟩
  case ContractHash =>
    exact ⟨_, from_xdr_of_valid (valid_contract p hp hb)⟩

/-- C7 witness: encoding a concrete 32-byte payload delegates to the host
and succeeds. -/
theorem c7_encode_fails_only_by_delegation_witness :
    Address.from_payload AddressPayloadType.AccountEd25519PublicKey
        (List.replicate 32 0) =
      Address.from_xdr (from_payloadXdr AddressPayloadType.AccountEd25519PublicKey
        (List.replicate 32 0)) ∧
      ∃ a, Address.from_payload AddressPayloadType.AccountEd25519PublicKey
        (List.replicate 32 0) = some a :=
  ⟨(c7_encode_fails_only_by_delegation AddressPayloadType.AccountEd25519PublicKey
      (List.replicate 32 0)).1,
    (c7_encode_fails_only_by_delegation AddressPayloadType.AccountEd25519PublicKey
      (List.replicate 32 0)).2 (by decide) (by decide)⟩

/-- C8: whenever decode returns `Some((t, p))`, the payload `p` is exactly
32 bytes long, for both variants. -/
theorem c8_payload_length_always_32 (a : Address) (t : AddressPayloadType) (p : Bytes)
    (h : Address.payload a = some (some (t, p))) : p.length = 32 := by
  obtain ⟨b, hv⟩ := a
  rw [valid_iff] at hv
  obtain ⟨-, h1 | h1 | h1 | h1 | h1⟩ := hv <;> obtain ⟨q, hq, hbq⟩ := h1 <;> subst hbq
  · rw [show (Address.payload ⟨[0, 0, 0, 18, 0, 0, 0, 0, 0, 0, 0, 0] ++ q, by assumption⟩ :
        Option (Option (AddressPayloadType × Bytes))) =
        payloadXdr ([0, 0, 0, 18, 0, 0, 0, 0, 0, 0, 0, 0] ++ q) from rfl,
      payloadXdr_account q hq] at h
    simp only [Option.some.injEq, Prod.mk.injEq] at h
    rw [← h.2, hq]
  · rw [show (Address.payload ⟨[0, 0, 0, 18, 0, 0, 0, 1] ++ q, by assumption⟩ :
        Option (Option (AddressPayloadType × Bytes))) =
        payloadXdr ([0, 0, 0, 18, 0, 0, 0, 1] ++ q) from rfl,
      payloadXdr_contract q hq] at h
    simp only [Option.some.injEq, Prod.mk.injEq] at h
    rw [← h.2, hq]
  · rw [show (Address.payload ⟨[0, 0, 0, 18, 0, 0, 0, 2] ++ q, by assumption⟩ :
        Option (Option (AddressPayloadType × Bytes))) =
        payloadXdr ([0, 0, 0, 18, 0, 0, 0, 2] ++ q) from rfl,
      payloadXdr_muxed q hq] at h
    simp at h
  · rw [show (Address.payload ⟨[0, 0, 0, 18, 0, 0, 0, 3, 0, 0, 0, 0] ++ q, by assumption⟩ :
        Option (Option (AddressPayloadType × Bytes))) =
        payloadXdr ([0, 0, 0, 18, 0, 0, 0, 3, 0, 0, 0, 0] ++ q) from rfl,
      payloadXdr_claimable q hq] at h
    simp at h
  · rw [show (Address.payload ⟨[0, 0, 0, 18, 0, 0, 0, 4] ++ q, by assumption⟩ :
        Option (Option (AddressPayloadType × Bytes))) =
        payloadXdr ([0, 0, 0, 18, 0, 0, 0, 4] ++ q) from rfl,
      payloadXdr_liquidity q hq] at h
    simp at h

/-- C8 witness: the decoded payload of a concrete account address has
length 32. -/
theorem c8_payload_length_always_32_witness :
    Address.payload accountExample =
        some (some (AddressPayloadType.AccountEd25519PublicKey,
          (List.replicate 32 9 : Bytes))) ∧
      (List.replicate 32 9 : Bytes).length = 32 :=
  ⟨by decide,
    c8_payload_length_always_32 accountExample
      AddressPayloadType.AccountEd25519PublicKey (List.replicate 32 9) (by decide)⟩

/-- C10: `from_payload` performs no length check: for a payload of any
length it builds header-plus-payload verbatim and hands it to the host;
a wrong-length payload is rejected only by the host, where the unwrap
aborts (`none`) instead of returning an error. -/
theorem c10_no_length_check (t : AddressPayloadType) (p : Bytes) :
    from_payloadXdr t p =
        (match t with
         | AddressPayloadType.AccountEd25519PublicKey =>
            [0, 0, 0, 18, 0, 0, 0, 0, 0, 0, 0, 0]
         | AddressPayloadType.ContractHash => [0, 0, 0, 18, 0, 0, 0, 1]) ++ p ∧
      Address.from_payload t p = Address.from_xdr (from_payloadXdr t p) ∧
      (p.length ≠ 32 → Address.from_payload t p = none) := by
  refine ⟨rfl, rfl, fun hne => ?_⟩
  cases t
  case AccountEd25519PublicKey =>
    exact from_xdr_of_invalid (fun hv => hne (valid_account_length p hv))
  case ContractHash =>
    exact from_xdr_of_invalid (fun hv => hne (valid_contract_length p hv))

/-- C10 witness: encoding an empty payload as a contract address aborts. -/
theorem c10_no_length_check_witness :
    ([] : Bytes).length ≠ 32 ∧
      Address.from_payload AddressPayloadType.ContractHash [] = none :=
  ⟨by decide,
    (c10_no_length_check AddressPayloadType.ContractHash []).2.2 (by decide)⟩

/-! ### Host string form (strkey), for the fixed test vectors

The repository calls the host's `Address::from_string` in its tests; that
code is not part of this repository, so it is modelled from the spec's
description of the vectors as canonical network test strings.  The
canonical network string form ("strkey") is RFC 4648 base32 (alphabet
`A`-`Z`, `2`-`7`, no padding) over `version byte ++ payload ++ 2-byte
little-endian CRC16-XMODEM checksum`, version byte 48 (`G`) for account
ed25519 keys and 16 (`C`) for contract hashes. -/

/-- Value of one RFC 4648 base32 character. -/
def b32Char (c : Char) : Option Nat :=
  if 'A' ≤ c ∧ c ≤ 'Z' then some (c.toNat - 65)
  else if '2' ≤ c ∧ c ≤ '7' then some (c.toNat - 50 + 26)
  else none

/-- The `w`-byte big-endian representation of `n % 256^w`. -/
def natToBytesBE : Nat → Nat → Bytes
  | 0, _ => []
  | w + 1, n => natToBytesBE w (n / 256) ++ [n % 256]

/-- Unpadded base32 decoding of a character list whose bit count is a
whole number of bytes. -/
def b32DecodeChars (cs : List Char) : Option Bytes :=
  if 5 * cs.length % 8 = 0 then
    (cs.mapM b32Char).map (fun vs =>
      natToBytesBE (5 * cs.length / 8) (vs.foldl (fun n v => n * 32 + v) 0))
  else none

/-- One byte of CRC16-XMODEM (polynomial 0x1021, initial value 0). -/
def crc16Round (crc b : Nat) : Nat :=
  (List.range 8).foldl
    (fun c _ => if c / 32768 % 2 = 1 then Nat.xor (c * 2) 4129 % 65536 else c * 2 % 65536)
    (Nat.xor crc (b * 256))

/-- CRC16-XMODEM of a byte buffer. -/
def crc16XM (data : Bytes) : Nat := data.foldl crc16Round 0

/-- Modelled from the spec: the host's `Address::from_string`, which is not
part of this repository.  It decodes a canonical network address string
("strkey"): base32-decode to `version byte ++ 32-byte payload ++ 2-byte
little-endian CRC16-XMODEM checksum`, verify the checksum, and build the
address value for version byte 48 (`G`, account ed25519) or 16 (`C`,
contract hash). -/
def Address.from_string (s : String) : Option Address :=
  match b32DecodeChars s.toList with
  | none => none
  | some raw =>
    if raw.length = 35 then
      let ver := raw.headD 0
      let body := (raw.drop 1).take 32
      if crc16XM (raw.take 33) = raw.getD 33 0 + 256 * raw.getD 34 0 then
        if ver = 48 then
          Address.from_xdr ([0, 0, 0, 18, 0, 0, 0, 0, 0, 0, 0, 0] ++ body)
        else if ver = 16 then
          Address.from_xdr ([0, 0, 0, 18, 0, 0, 0, 1] ++ body)
        else none
      else none
    else none

/-- The contract-address test string from the spec's fixed vectors. -/
def contractAddrStr : String := "CDLZFC3SYJYDZT7K67VZ75HPJVIEUVNIXF47ZG2FB2RMQQVU2HHGCYSC"

/-- The account-address test string from the spec's fixed vectors. -/
def accountAddrStr : String := "GCEZWKCA5VLDNRLN3RPRJMRZOX3Z6G5CHCGSNFHEYVXM3XOJMDS674JZ"

/-- C6 counterexample: the account vector fails as stated.  The address
`GCEZWKCA5VLDNRLN3RPRJMRZOX3Z6G5CHCGSNFHEYVXM3XOJMDS674JZ` does not decode
to the spec's stated payload `0x899b...e5e` (a 63-hex-digit value); its
actual ed25519 payload ends in byte `0xef`, not `0x5e`. -/
theorem c6_fixed_vectors_counterexample :
    ¬ ((Address.from_string accountAddrStr).bind Address.payload =
        some (some (AddressPayloadType.AccountEd25519PublicKey,
          natToBytesBE 32
            0x899b2840ed5636c56ddc5f14b23975f79f1ba2388d2694e4c56ecdddc960e5e))) := by
  decide

/-- C6 amended: the fixed vectors with the account payload corrected to its
full 64-hex-digit value `0x899b...e5ef`: the contract address decodes to
`(ContractHash, 0xd7928b72c2703ccfeaf7eb9ff4ef4d504a55a8b979fc9b450ea2c842b4d1ce61)`
and the account address decodes to `(AccountEd25519PublicKey,
0x899b2840ed5636c56ddc5f14b23975f79f1ba2388d2694e4c56ecdddc960e5ef)`. -/
theorem c6_fixed_vectors_amended :
    (Address.from_string contractAddrStr).bind Address.payload =
        some (some (AddressPayloadType.ContractHash,
          natToBytesBE 32
            0xd7928b72c2703ccfeaf7eb9ff4ef4d504a55a8b979fc9b450ea2c842b4d1ce61)) ∧
      (Address.from_string accountAddrStr).bind Address.payload =
        some (some (AddressPayloadType.AccountEd25519PublicKey,
          natToBytesBE 32
            0x899b2840ed5636c56ddc5f14b23975f79f1ba2388d2694e4c56ecdddc960e5ef)) := by
  decide

end AddrPayload
